import Mathlib

/-!
Verification of the fmail client-side automation engine.

Shallow embedding of:
- the email data model (src/frontend/src/store/email.schema.ts),
- the mailbox store operations (src/frontend/src/store/useEmailStore.ts),
- the rule engine (src/frontend/src/services/WorkflowExecutor.ts),
- the automation coordinator WorkflowService (src/unnamed/part_010),
- the channel client reconnect logic (WorkflowTracker in
  src/frontend/src/data/hillaryEmailLoader.ts).

JavaScript strings stay String, numbers become Int/Nat, JS Sets become
insertion-ordered duplicate-free lists, Dates become Nat timestamps, and
the eval of untrusted hook code becomes an oracle returning either the
recorded action tokens or the thrown exception message.
-/

/-- Email record, following EmailSchema in email.schema.ts.  The `from`
field is named `from'` because `from` is a Lean keyword; `location` and
`tags` are strings at the JS runtime and are modelled as such. -/
structure Email where
  id : Int
  from' : String
  email : String
  subject : String
  preview : String
  time : String
  unread : Bool
  starred : Bool
  hasAttachment : Bool
  location : String
  tags : List String
deriving DecidableEq, Repr

/-- The slice of the zustand store state touched by the mailbox
operations of useEmailStore.ts: the email list, the selected email and
the current view. -/
structure EmailStoreState where
  emails : List Email
  selectedEmail : Option Email
  currentView : String
deriving DecidableEq, Repr

/-- Per-email update performed by moveEmail: set `location` on the email
with the given id, leave every other email unchanged. -/
def moveEmailUpd (emailId : Int) (location : String) (e : Email) : Email :=
  if e.id = emailId then { e with location := location } else e

/-- moveEmail of useEmailStore.ts.  The source updates `emails` by
mapping the conditional update, updates `selectedEmail` by the same
conditional (a no-op when the id differs or nothing is selected, which
is exactly `Option.map` of the same update), and returns to the home
view. -/
def moveEmail (emailId : Int) (location : String) (st : EmailStoreState) : EmailStoreState :=
  { emails := st.emails.map (moveEmailUpd emailId location)
    selectedEmail := st.selectedEmail.map (moveEmailUpd emailId location)
    currentView := "home" }

/-- Per-email update performed by toggleStarred. -/
def toggleStarredUpd (emailId : Int) (e : Email) : Email :=
  if e.id = emailId then { e with starred := !e.starred } else e

/-- toggleStarred of useEmailStore.ts; `currentView` is untouched. -/
def toggleStarred (emailId : Int) (st : EmailStoreState) : EmailStoreState :=
  { emails := st.emails.map (toggleStarredUpd emailId)
    selectedEmail := st.selectedEmail.map (toggleStarredUpd emailId)
    currentView := st.currentView }

/-- Per-email update performed by addTag: append the tag only when the
id matches and the tag is not already present (`!email.tags.includes(tag)`). -/
def addTagUpd (emailId : Int) (tag : String) (e : Email) : Email :=
  if e.id = emailId ∧ tag ∉ e.tags then { e with tags := e.tags ++ [tag] } else e

/-- addTag of useEmailStore.ts. -/
def addTag (emailId : Int) (tag : String) (st : EmailStoreState) : EmailStoreState :=
  { emails := st.emails.map (addTagUpd emailId tag)
    selectedEmail := st.selectedEmail.map (addTagUpd emailId tag)
    currentView := st.currentView }

/-- Per-email update performed by removeTag: filter the tag out of the
matching email's tags. -/
def removeTagUpd (emailId : Int) (tag : String) (e : Email) : Email :=
  if e.id = emailId then { e with tags := e.tags.filter (fun t => decide (t ≠ tag)) } else e

/-- removeTag of useEmailStore.ts. -/
def removeTag (emailId : Int) (tag : String) (st : EmailStoreState) : EmailStoreState :=
  { emails := st.emails.map (removeTagUpd emailId tag)
    selectedEmail := st.selectedEmail.map (removeTagUpd emailId tag)
    currentView := st.currentView }

/-- Per-email update performed by markAsRead: `unread := !read` on the
matching email. -/
def markAsReadUpd (emailId : Int) (read : Bool) (e : Email) : Email :=
  if e.id = emailId then { e with unread := !read } else e

/-- markAsRead of useEmailStore.ts.  The source additionally forwards a
mark_read ActionEvent to the WorkflowService when a matching unread
email is being read; that side effect goes to the tracker, not to the
store state modelled here. -/
def markAsRead (emailId : Int) (read : Bool) (st : EmailStoreState) : EmailStoreState :=
  { emails := st.emails.map (markAsReadUpd emailId read)
    selectedEmail := st.selectedEmail.map (markAsReadUpd emailId read)
    currentView := st.currentView }

/-- Per-email update performed by deleteEmail: move the matching email
to the trash location. -/
def deleteEmailUpd (emailId : Int) (e : Email) : Email :=
  if e.id = emailId then { e with location := "trash" } else e

/-- deleteEmail of useEmailStore.ts: soft delete into trash, returning
to the home view. -/
def deleteEmail (emailId : Int) (st : EmailStoreState) : EmailStoreState :=
  { emails := st.emails.map (deleteEmailUpd emailId)
    selectedEmail := st.selectedEmail.map (deleteEmailUpd emailId)
    currentView := "home" }

lemma list_map_idem {f : Email → Email} (hf : ∀ e, f (f e) = f e) :
    ∀ l : List Email, (l.map f).map f = l.map f := by
  intro l
  induction l with
  | nil => rfl
  | cons e l ih => simp only [List.map_cons, hf, ih]

lemma option_map_idem {f : Email → Email} (hf : ∀ e, f (f e) = f e) :
    ∀ o : Option Email, (o.map f).map f = o.map f := by
  intro o
  cases o with
  | none => rfl
  | some e => simp only [Option.map_some', hf]

lemma moveEmailUpd_idem (emailId : Int) (location : String) (e : Email) :
    moveEmailUpd emailId location (moveEmailUpd emailId location e)
      = moveEmailUpd emailId location e := by
  unfold moveEmailUpd
  by_cases h : e.id = emailId <;> simp [h]

lemma addTagUpd_idem (emailId : Int) (tag : String) (e : Email) :
    addTagUpd emailId tag (addTagUpd emailId tag e) = addTagUpd emailId tag e := by
  unfold addTagUpd
  by_cases h : e.id = emailId ∧ tag ∉ e.tags <;> simp [h]

lemma filter_ne_idem (tag : String) (l : List String) :
    (l.filter (fun t => decide (t ≠ tag))).filter (fun t => decide (t ≠ tag))
      = l.filter (fun t => decide (t ≠ tag)) := by
  induction l with
  | nil => rfl
  | cons t l ih =>
    by_cases h : t = tag <;> simp [h, ih]

lemma removeTagUpd_idem (emailId : Int) (tag : String) (e : Email) :
    removeTagUpd emailId tag (removeTagUpd emailId tag e) = removeTagUpd emailId tag e := by
  unfold removeTagUpd
  by_cases h : e.id = emailId <;> simp [h, filter_ne_idem]

lemma markAsReadUpd_idem (emailId : Int) (read : Bool) (e : Email) :
    markAsReadUpd emailId read (markAsReadUpd emailId read e) = markAsReadUpd emailId read e := by
  unfold markAsReadUpd
  by_cases h : e.id = emailId <;> simp [h]

lemma deleteEmailUpd_idem (emailId : Int) (e : Email) :
    deleteEmailUpd emailId (deleteEmailUpd emailId e) = deleteEmailUpd emailId e := by
  unfold deleteEmailUpd
  by_cases h : e.id = emailId <;> simp [h]

lemma toggleStarredUpd_invol (emailId : Int) (e : Email) :
    toggleStarredUpd emailId (toggleStarredUpd emailId e) = e := by
  obtain ⟨i, f, em, su, pv, ti, un, sr, ha, lo, tg⟩ := e
  unfold toggleStarredUpd
  by_cases h : i = emailId <;> simp [h]

lemma list_map_invol {f : Email → Email} (hf : ∀ e, f (f e) = e) :
    ∀ l : List Email, (l.map f).map f = l := by
  intro l
  induction l with
  | nil => rfl
  | cons e l ih => simp only [List.map_cons, hf, ih]

lemma option_map_invol {f : Email → Email} (hf : ∀ e, f (f e) = e) :
    ∀ o : Option Email, (o.map f).map f = o := by
  intro o
  cases o with
  | none => rfl
  | some e => simp only [Option.map_some', hf]

lemma moveEmail_idem (emailId : Int) (location : String) (st : EmailStoreState) :
    moveEmail emailId location (moveEmail emailId location st) = moveEmail emailId location st := by
  unfold moveEmail
  simp [list_map_idem (moveEmailUpd_idem emailId location),
        option_map_idem (moveEmailUpd_idem emailId location)]

lemma addTag_idem (emailId : Int) (tag : String) (st : EmailStoreState) :
    addTag emailId tag (addTag emailId tag st) = addTag emailId tag st := by
  unfold addTag
  simp [list_map_idem (addTagUpd_idem emailId tag),
        option_map_idem (addTagUpd_idem emailId tag)]

lemma removeTag_idem (emailId : Int) (tag : String) (st : EmailStoreState) :
    removeTag emailId tag (removeTag emailId tag st) = removeTag emailId tag st := by
  unfold removeTag
  simp [list_map_idem (removeTagUpd_idem emailId tag),
        option_map_idem (removeTagUpd_idem emailId tag)]

lemma markAsRead_idem (emailId : Int) (read : Bool) (st : EmailStoreState) :
    markAsRead emailId read (markAsRead emailId read st) = markAsRead emailId read st := by
  unfold markAsRead
  simp [list_map_idem (markAsReadUpd_idem emailId read),
        option_map_idem (markAsReadUpd_idem emailId read)]

lemma deleteEmail_idem (emailId : Int) (st : EmailStoreState) :
    deleteEmail emailId (deleteEmail emailId st) = deleteEmail emailId st := by
  unfold deleteEmail
  simp [list_map_idem (deleteEmailUpd_idem emailId),
        option_map_idem (deleteEmailUpd_idem emailId)]

lemma toggleStarred_invol (emailId : Int) (st : EmailStoreState) :
    toggleStarred emailId (toggleStarred emailId st) = st := by
  unfold toggleStarred
  simp [list_map_invol (toggleStarredUpd_invol emailId),
        option_map_invol (toggleStarredUpd_invol emailId)]

/-- Concrete mailbox used for counterexamples and witnesses. -/
def demoEmail : Email :=
  { id := 1, from' := "alice", email := "alice@example.com", subject := "hello"
    preview := "", time := "t", unread := true, starred := false
    hasAttachment := false, location := "inbox", tags := [] }

/-- Concrete store state used for counterexamples and witnesses. -/
def demoStore : EmailStoreState :=
  { emails := [demoEmail], selectedEmail := none, currentView := "home" }

/-- JS String.prototype.startsWith, implemented over the underlying
character list so that it evaluates inside the kernel. -/
def strStartsWith (s p : String) : Bool :=
  p.data.isPrefixOf s.data

/-- ASCII lowercasing of one character (JS toLowerCase restricted to the
ASCII labels this code compares). -/
def charLower (c : Char) : Char :=
  if c.toNat ≥ 65 ∧ c.toNat ≤ 90 then Char.ofNat (c.toNat + 32) else c

/-- JS String.prototype.toLowerCase over the character list. -/
def strToLower (s : String) : String :=
  String.mk (s.data.map charLower)

/-- Decimal digit-list parser: some value when the list is non-empty and
all digits, none otherwise. -/
def parseNatDigits : List Char → Option Nat
  | [] => none
  | l => l.foldl (fun acc c =>
      match acc with
      | none => none
      | some n => if c.isDigit then some (n * 10 + (c.toNat - 48)) else none) (some 0)

/-- JS parseInt followed by the isNaN check, restricted to fully numeric
(optionally sign-prefixed) strings: the id strings this code parses are
decimal renderings of numeric email ids. -/
def strToInt (s : String) : Option Int :=
  match s.data with
  | '-' :: rest => (parseNatDigits rest).map (fun n => -(n : Int))
  | l => (parseNatDigits l).map (fun n => (n : Int))

/-- The tagged action kinds of a UserAction (WorkflowTracker union type).
The source kind "open" is a Lean keyword and is rendered `open'`. -/
inductive ActionKind where
  | archive | delete | star | unstar | open' | close
  | mark_read | mark_unread | add_label | remove_label
  | move_to_inbox | move_to_spam | move_to_trash | move_to_archive
  | undo_archive | undo_delete | undo_star | undo_unstar
  | undo_mark_read | undo_mark_unread | undo_add_label | undo_remove_label
  | undo_move_to_inbox | undo_move_to_spam | undo_move_to_trash | undo_move_to_archive
deriving DecidableEq, Repr

/-- The email summary carried inside a UserAction. -/
structure TrackedEmail where
  id : String
  sender : String
  subject : String
  labels : List String
deriving DecidableEq, Repr

/-- The context carried inside a UserAction (location is "home" or "detail"). -/
structure TrackedContext where
  location : String
deriving DecidableEq, Repr

/-- UserAction of WorkflowTracker. -/
structure UserAction where
  action : ActionKind
  email : TrackedEmail
  context : TrackedContext
  duration : Option Nat
deriving DecidableEq, Repr

/-- Trigger events a hook can be registered for. -/
inductive TriggerEvent where
  | email_received | email_closed | user_action
deriving DecidableEq, Repr

/-- WorkflowHook of WorkflowExecutor.ts.  Dates are modelled as Nat
timestamps; the optional `conditions` field is never read by the engine
and is omitted. -/
structure WorkflowHook where
  id : String
  name : String
  description : String
  trigger_event : TriggerEvent
  enabled : Bool
  function_code : String
  created_at : Nat
  execution_count : Nat
  last_executed : Option Nat
deriving DecidableEq, Repr

/-- WorkflowContext of WorkflowExecutor.ts. -/
structure WorkflowContext where
  user_id : String
  location : String
  time_of_day : Nat
  day_of_week : Nat
  session_id : String
deriving DecidableEq, Repr

/-- WorkflowResult of WorkflowExecutor.ts.  `execution_time` is a wall
clock measurement; the model pins it to 0. -/
structure WorkflowResult where
  hook_id : String
  success : Bool
  actions_taken : List String
  email_id : Option String
  error : Option String
  execution_time : Nat
deriving DecidableEq, Repr

/-- Oracle for the eval of a hook's untrusted function_code: given the
hook, the email and the context it either returns the action tokens the
hook body recorded through the WorkflowEmailAPI (normal return) or the
message of the exception it threw. -/
def HookEval : Type :=
  WorkflowHook → Email → WorkflowContext → Except String (List String)

/-- executeHook of WorkflowExecutor.ts: a successful eval yields a
successful WorkflowResult carrying the recorded tokens and the email id;
a thrown exception is caught and becomes a failed result with empty
actions_taken and the exception message. -/
def executeHook (eval : HookEval) (hook : WorkflowHook) (email : Email)
    (context : WorkflowContext) : WorkflowResult :=
  match eval hook email context with
  | Except.ok actions =>
    { hook_id := hook.id, success := true, actions_taken := actions
      email_id := some (toString email.id), error := none, execution_time := 0 }
  | Except.error msg =>
    { hook_id := hook.id, success := false, actions_taken := []
      email_id := none, error := some msg, execution_time := 0 }

/-- getHooksForTrigger of WorkflowExecutor.ts: the enabled hooks whose
trigger_event equals the dispatched trigger, in hook-list order. -/
def getHooksForTrigger (hooks : List WorkflowHook) (trigger : TriggerEvent) :
    List WorkflowHook :=
  hooks.filter (fun hook => hook.enabled && decide (hook.trigger_event = trigger))

/-- The body of the for-loop shared by executeEmailWorkflows,
executeActionWorkflows and executeEmailCloseWorkflows: execute each
selected hook in order and collect the results. -/
def runHookLoop (eval : HookEval) (email : Email) (context : WorkflowContext) :
    List WorkflowHook → List WorkflowResult
  | [] => []
  | hook :: rest =>
    executeHook eval hook email context :: runHookLoop eval email context rest

/-- Execution-stat bump applied to a hook after a successful execution:
increment execution_count and stamp last_executed. -/
def bumpHook (now : Nat) (hook : WorkflowHook) : WorkflowHook :=
  { hook with execution_count := hook.execution_count + 1, last_executed := some now }

/-- Effect of one execute pass on the persistent hook list: the loop
mutates (in place) exactly the selected hooks whose execution succeeded,
so on the full list this is the pointwise conditional bump. -/
def updateHookStats (eval : HookEval) (trigger : TriggerEvent) (email : Email)
    (context : WorkflowContext) (now : Nat) (hooks : List WorkflowHook) :
    List WorkflowHook :=
  hooks.map (fun hook =>
    if hook.enabled && decide (hook.trigger_event = trigger)
        && (executeHook eval hook email context).success
    then bumpHook now hook else hook)

/-- Shared shape of the three execute entry points of
WorkflowExecutor.ts: select the enabled hooks for the trigger, run them
in order, and bump the stats of the successful ones. -/
def executeWorkflowsFor (eval : HookEval) (trigger : TriggerEvent) (email : Email)
    (context : WorkflowContext) (now : Nat) (hooks : List WorkflowHook) :
    List WorkflowResult × List WorkflowHook :=
  (runHookLoop eval email context (getHooksForTrigger hooks trigger),
   updateHookStats eval trigger email context now hooks)

/-- executeEmailWorkflows of WorkflowExecutor.ts. -/
def executeEmailWorkflows (eval : HookEval) (hooks : List WorkflowHook)
    (email : Email) (context : WorkflowContext) (now : Nat) :
    List WorkflowResult × List WorkflowHook :=
  executeWorkflowsFor eval TriggerEvent.email_received email context now hooks

/-- executeEmailCloseWorkflows of WorkflowExecutor.ts. -/
def executeEmailCloseWorkflows (eval : HookEval) (hooks : List WorkflowHook)
    (email : Email) (context : WorkflowContext) (now : Nat) :
    List WorkflowResult × List WorkflowHook :=
  executeWorkflowsFor eval TriggerEvent.email_closed email context now hooks

/-- Conversion of a UserAction into the Email record fed to user_action
hooks (executeActionWorkflows).  JS parseInt-or-zero on the id string is
modelled by strToInt with default 0; `nowIso` stands for the fresh
toISOString timestamp. -/
def actionToEmail (action : UserAction) (nowIso : String) : Email :=
  { id := (strToInt action.email.id).getD 0
    from' := action.email.sender
    email := action.email.sender
    subject := action.email.subject
    preview := ""
    time := nowIso
    unread := true
    starred := false
    hasAttachment := false
    location := "inbox"
    tags := action.email.labels }

/-- executeActionWorkflows of WorkflowExecutor.ts. -/
def executeActionWorkflows (eval : HookEval) (hooks : List WorkflowHook)
    (action : UserAction) (context : WorkflowContext) (now : Nat) (nowIso : String) :
    List WorkflowResult × List WorkflowHook :=
  executeWorkflowsFor eval TriggerEvent.user_action (actionToEmail action nowIso)
    context now hooks

/-- The fixed allowlist of intentional action kinds of
shouldAnalyzeForPatterns (a JS Set in the source). -/
def intentionalActions : List ActionKind :=
  [ActionKind.star, ActionKind.unstar, ActionKind.delete, ActionKind.archive,
   ActionKind.add_label, ActionKind.remove_label, ActionKind.mark_read,
   ActionKind.mark_unread, ActionKind.move_to_spam, ActionKind.move_to_trash]

/-- shouldAnalyzeForPatterns of WorkflowExecutor.ts. -/
def shouldAnalyzeForPatterns (action : UserAction) : Bool :=
  intentionalActions.contains action.action

/-- State of a WorkflowEmailAPI capability object: the copied email and
the list of recorded intent tokens (WorkflowExecutor.ts lines 45-122). -/
structure WorkflowEmailAPI where
  email : Email
  actionsTaken : List String
deriving DecidableEq, Repr

/-- Constructor of WorkflowEmailAPI: copies the email and starts with no
recorded actions. -/
def WorkflowEmailAPI.new (email : Email) : WorkflowEmailAPI :=
  { email := email, actionsTaken := [] }

/-- Read-only getters of WorkflowEmailAPI, each a pure function of the
copied email. -/
def WorkflowEmailAPI.idGet (api : WorkflowEmailAPI) : String := toString api.email.id

def WorkflowEmailAPI.sender (api : WorkflowEmailAPI) : String := api.email.from'

def WorkflowEmailAPI.subjectGet (api : WorkflowEmailAPI) : String := api.email.subject

def WorkflowEmailAPI.body (api : WorkflowEmailAPI) : String := api.email.preview

def WorkflowEmailAPI.labels (api : WorkflowEmailAPI) : List String := api.email.tags

def WorkflowEmailAPI.is_read (api : WorkflowEmailAPI) : Bool := !api.email.unread

def WorkflowEmailAPI.is_starred (api : WorkflowEmailAPI) : Bool := api.email.starred

def WorkflowEmailAPI.attachments (api : WorkflowEmailAPI) : List String :=
  if api.email.hasAttachment then ["attachment"] else []

/-- The intent-recording method calls a hook body can make on the
capability object. -/
inductive ApiCall where
  | archive | delete | star | unstar | markRead | markUnread
  | addLabel (label : String) | removeLabel (label : String)
  | moveToSpam | moveToTrash
deriving DecidableEq, Repr

/-- Effect of one method call on the capability object, following the
method bodies in WorkflowExecutor.ts: each call appends its token to
actionsTaken and touches nothing else; addLabel/removeLabel guard on a
truthy label (the empty string is falsy in JS) and record nothing for
an empty label. -/
def applyCall (api : WorkflowEmailAPI) (call : ApiCall) : WorkflowEmailAPI :=
  match call with
  | ApiCall.archive => { api with actionsTaken := api.actionsTaken ++ ["archive"] }
  | ApiCall.delete => { api with actionsTaken := api.actionsTaken ++ ["delete"] }
  | ApiCall.star => { api with actionsTaken := api.actionsTaken ++ ["star"] }
  | ApiCall.unstar => { api with actionsTaken := api.actionsTaken ++ ["unstar"] }
  | ApiCall.markRead => { api with actionsTaken := api.actionsTaken ++ ["mark_read"] }
  | ApiCall.markUnread => { api with actionsTaken := api.actionsTaken ++ ["mark_unread"] }
  | ApiCall.addLabel label =>
    if label ≠ "" then { api with actionsTaken := api.actionsTaken ++ ["add_label:" ++ label] }
    else api
  | ApiCall.removeLabel label =>
    if label ≠ "" then { api with actionsTaken := api.actionsTaken ++ ["remove_label:" ++ label] }
    else api
  | ApiCall.moveToSpam => { api with actionsTaken := api.actionsTaken ++ ["move_to_spam"] }
  | ApiCall.moveToTrash => { api with actionsTaken := api.actionsTaken ++ ["move_to_trash"] }

/-- getActionsTaken of WorkflowEmailAPI (the source returns a copy of
the internal list). -/
def getActionsTaken (api : WorkflowEmailAPI) : List String := api.actionsTaken

/-- The token(s) a single call records, read off the same method bodies:
every call records exactly one token except addLabel/removeLabel with an
empty label, which record none. -/
def tokensOf (call : ApiCall) : List String :=
  match call with
  | ApiCall.archive => ["archive"]
  | ApiCall.delete => ["delete"]
  | ApiCall.star => ["star"]
  | ApiCall.unstar => ["unstar"]
  | ApiCall.markRead => ["mark_read"]
  | ApiCall.markUnread => ["mark_unread"]
  | ApiCall.addLabel label => if label ≠ "" then ["add_label:" ++ label] else []
  | ApiCall.removeLabel label => if label ≠ "" then ["remove_label:" ++ label] else []
  | ApiCall.moveToSpam => ["move_to_spam"]
  | ApiCall.moveToTrash => ["move_to_trash"]

/-- Run a sequence of method calls against a capability object. -/
def runCalls (api : WorkflowEmailAPI) (calls : List ApiCall) : WorkflowEmailAPI :=
  calls.foldl applyCall api

/-- State of the WorkflowService singleton relevant to debounced action
tracking (src/unnamed/part_010).  `debounceTimer` holds the generation
of the currently armed setTimeout (none if no timer is armed) and
`nextTimerId` the generation the next setTimeout call will get, so that
clearTimeout-then-setTimeout is cancel-and-reschedule.  `sentActions`
logs the actions handed to tracker.trackAction (the channel client) and
`analyzedActions` the actions handed to local user_action hook
execution; `flushCount` counts executions of the non-empty branch of
processPendingActions.  These three are observation logs of the calls
the source makes, added to the state to phrase the temporal claims. -/
structure WorkflowServiceState where
  pendingActions : List UserAction
  debounceTimer : Option Nat
  nextTimerId : Nat
  sentActions : List UserAction
  analyzedActions : List UserAction
  flushCount : Nat
  tracker : Bool
  userId : Option String
deriving DecidableEq, Repr

/-- trackAction of WorkflowService: bail out when no tracker is
initialized; otherwise append the action to the pending batch, cancel
any existing debounce timer and arm a fresh one. -/
def trackAction (action : UserAction) (st : WorkflowServiceState) : WorkflowServiceState :=
  if st.tracker = false then st
  else
    { st with
      pendingActions := st.pendingActions ++ [action]
      debounceTimer := some st.nextTimerId
      nextTimerId := st.nextTimerId + 1 }

/-- processPendingActions of WorkflowService: on an empty batch return
at once; otherwise send every pending action to the tracker in arrival
order, hand only the most recent action to local user_action hook
execution (when a user is set and the action passes
shouldAnalyzeForPatterns), then clear the batch and the timer. -/
def processPendingActions (st : WorkflowServiceState) : WorkflowServiceState :=
  match st.pendingActions.getLast? with
  | none => st
  | some mostRecentAction =>
    let st1 := { st with sentActions := st.sentActions ++ st.pendingActions }
    let st2 :=
      if st.userId.isSome && shouldAnalyzeForPatterns mostRecentAction then
        { st1 with analyzedActions := st1.analyzedActions ++ [mostRecentAction] }
      else st1
    { st2 with pendingActions := [], debounceTimer := none, flushCount := st2.flushCount + 1 }

/-- Firing of the setTimeout callback of generation `gen`: only the
currently armed timer runs processPendingActions; a cancelled or
superseded timer never does (clearTimeout). -/
def fireTimer (gen : Nat) (st : WorkflowServiceState) : WorkflowServiceState :=
  if st.debounceTimer = some gen then processPendingActions st else st

/-- Track a burst of actions, one trackAction call per event. -/
def trackBurst (actions : List UserAction) (st : WorkflowServiceState) :
    WorkflowServiceState :=
  actions.foldl (fun s a => trackAction a s) st

/-- Fire a list of timer generations in order. -/
def fireAll (gens : List Nat) (st : WorkflowServiceState) : WorkflowServiceState :=
  gens.foldl (fun s g => fireTimer g s) st

/-- State of the suggestion lifecycle inside WorkflowService:
`activeSuggestionIds` models the JS Set (insertion order, no
duplicates), `hasCleanupCallback` whether onSuggestionCleanup has
registered a callback, and `cleanupCalls` logs every invocation of that
callback. -/
structure SuggestionState where
  activeSuggestionIds : List String
  hasCleanupCallback : Bool
  cleanupCalls : List String
deriving DecidableEq, Repr

/-- cleanupOldSuggestions of WorkflowService: when there are active
suggestions and a cleanup callback is registered, invoke the callback
once per active id and clear the set; otherwise do nothing. -/
def cleanupOldSuggestions (st : SuggestionState) : SuggestionState :=
  if st.activeSuggestionIds ≠ [] ∧ st.hasCleanupCallback then
    { st with
      cleanupCalls := st.cleanupCalls ++ st.activeSuggestionIds
      activeSuggestionIds := [] }
  else st

/-- JS Set.add: append only if absent. -/
def setInsert (l : List String) (id : String) : List String :=
  if id ∈ l then l else l ++ [id]

/-- Events that touch the suggestion lifecycle state: a new suggestion
arriving through the onSuggestion wrapper, a direct hook creation
through addWorkflow, and registration of the cleanup callback through
onSuggestionCleanup. -/
inductive SuggestionEvent where
  | arrive (id : String)
  | createWorkflow
  | registerCleanup
deriving DecidableEq, Repr

/-- Step function of the suggestion lifecycle: on arrival the service
cleans up old suggestions, then tracks the new id; addWorkflow cleans up
active suggestions after installing the hook; onSuggestionCleanup
installs the callback. -/
def suggestionStep (st : SuggestionState) (ev : SuggestionEvent) : SuggestionState :=
  match ev with
  | SuggestionEvent.arrive id =>
    let st' := cleanupOldSuggestions st
    { st' with activeSuggestionIds := setInsert st'.activeSuggestionIds id }
  | SuggestionEvent.createWorkflow => cleanupOldSuggestions st
  | SuggestionEvent.registerCleanup => { st with hasCleanupCallback := true }

/-- Run a trace of suggestion lifecycle events. -/
def suggestionRun (st : SuggestionState) (evs : List SuggestionEvent) : SuggestionState :=
  evs.foldl suggestionStep st

/-- The label map of applyWorkflowActions: the known label names (looked
up after lowercasing) and the tag each maps to. -/
def labelMap (label : String) : Option String :=
  if label = "important" then some "important"
  else if label = "work" then some "work"
  else if label = "personal" then some "personal"
  else if label = "finance" then some "finance"
  else if label = "travel" then some "travel"
  else if label = "shopping" then some "shopping"
  else if label = "promotions" then some "promotions"
  else none

/-- JS `action.split(':')[1]`: the segment between the first and second
colon, or the empty string when there is no such segment. -/
def splitColon1 (s : String) : String :=
  String.mk (((s.data.dropWhile (fun c => c ≠ ':')).drop 1).takeWhile (fun c => c ≠ ':'))

/-- One iteration of the forEach over action tokens in
applyWorkflowActions: dispatch the token to the store operation the
source maps it to and report the human-readable summary fragment pushed
into actionsApplied; a token matching no branch changes nothing and
reports nothing.  The try/catch around each iteration is dead in this
pure model because every store operation is total. -/
def applyOneAction (emailId : Int) (st : EmailStoreState) (action : String) :
    EmailStoreState × List String :=
  if action = "delete" then (deleteEmail emailId st, ["deleted"])
  else if action = "archive" then (moveEmail emailId "archive" st, ["archived"])
  else if action = "star" then (toggleStarred emailId st, ["starred"])
  else if action = "unstar" then (toggleStarred emailId st, ["unstarred"])
  else if action = "mark_read" then (markAsRead emailId true st, ["marked as read"])
  else if action = "mark_unread" then (markAsRead emailId false st, ["marked as unread"])
  else if strStartsWith action "add_label:" then
    let label := splitColon1 action
    if label ≠ "" then
      match labelMap (strToLower label) with
      | some emailTag => (addTag emailId emailTag st, ["labeled as " ++ label])
      | none => (st, [])
    else (st, [])
  else if strStartsWith action "remove_label:" then
    let label := splitColon1 action
    if label ≠ "" then
      match labelMap (strToLower label) with
      | some emailTag => (removeTag emailId emailTag st, ["removed " ++ label ++ " label"])
      | none => (st, [])
    else (st, [])
  else if action = "move_to_spam" then (moveEmail emailId "spam" st, ["moved to spam"])
  else if action = "move_to_trash" then (moveEmail emailId "trash" st, ["moved to trash"])
  else (st, [])

/-- The forEach loop of applyWorkflowActions over the token list,
threading the store state and accumulating actionsApplied. -/
def applyActionsLoop (emailId : Int) (st : EmailStoreState) :
    List String → EmailStoreState × List String
  | [] => (st, [])
  | action :: rest =>
    let (st', applied) := applyOneAction emailId st action
    let (st'', applied') := applyActionsLoop emailId st' rest
    (st'', applied ++ applied')

/-- applyWorkflowActions of WorkflowService: the returned triple is the
new store state, the actionsApplied summary list, and the console.warn
messages the function logs.  A missing email id or an unparseable email
id warns and bails out; otherwise the token loop runs and, in the
source, its outcome feeds one toast (not modelled).  String-to-number
parsing (JS parseInt + isNaN check) is modelled by strToInt. -/
def applyWorkflowActions (actions : List String) (emailId : Option String)
    (st : EmailStoreState) : EmailStoreState × List String × List String :=
  match emailId with
  | none => (st, [], ["Cannot apply workflow actions: email ID not provided"])
  | some eid =>
    match strToInt eid with
    | none => (st, [], ["Invalid email ID for workflow actions: " ++ eid])
    | some numericEmailId =>
      let (st', applied) := applyActionsLoop numericEmailId st actions
      (st', applied, [])

/-- A token is recognized when it matches one of the branches of the
dispatch chain with a known, non-empty label where applicable. -/
def recognizedToken (action : String) : Bool :=
  action = "delete" || action = "archive" || action = "star" || action = "unstar"
    || action = "mark_read" || action = "mark_unread"
    || (strStartsWith action "add_label:"
        && splitColon1 action ≠ "" && (labelMap (strToLower (splitColon1 action))).isSome)
    || (strStartsWith action "remove_label:"
        && splitColon1 action ≠ "" && (labelMap (strToLower (splitColon1 action))).isSome)
    || action = "move_to_spam" || action = "move_to_trash"

/-- maxReconnectAttempts of WorkflowTracker. -/
def maxReconnectAttempts : Nat := 5

/-- The backoff delay computed for the k-th reconnect attempt:
Math.min(1000 * 2^k, 30000). -/
def reconnectDelay (k : Nat) : Nat := min (1000 * 2 ^ k) 30000

/-- attemptReconnect of WorkflowTracker, as a function of the current
reconnectAttempts counter: below the cap it increments the counter and
schedules a connect() after the backoff delay (returning the new counter
and the delay); at or above the cap it schedules nothing. -/
def attemptReconnect (reconnectAttempts : Nat) : Option (Nat × Nat) :=
  if reconnectAttempts < maxReconnectAttempts then
    some (reconnectAttempts + 1, reconnectDelay (reconnectAttempts + 1))
  else none

/-- Delays of the automatic reconnect attempts made while every
connect() keeps failing, starting from counter `attempts`, with `fuel`
bounding the number of failures observed. -/
def reconnectTrace (fuel attempts : Nat) : List Nat :=
  match fuel with
  | 0 => []
  | fuel' + 1 =>
    match attemptReconnect attempts with
    | none => []
    | some (attempts', delay) => delay :: reconnectTrace fuel' attempts'

/-- C4 counterexample: toggleStar is not idempotent.  On a mailbox whose
only email is unstarred, toggling the star twice yields a different
store state (starred back to false) than toggling it once (starred
true), refuting the claim that every listed Mailbox operation is
idempotent. -/
theorem c4_toggleStar_not_idempotent :
    toggleStarred 1 (toggleStarred 1 demoStore) ≠ toggleStarred 1 demoStore := by
  decide

/-- C4 (amended): move, setRead (markAsRead), addTag, removeTag and
delete are each idempotent on the mailbox store state; toggleStar is not
idempotent but is an involution — applying it twice in succession
restores the original store state. -/
theorem c4_mailbox_op_idempotence :
    ∀ (emailId : Int) (location tag : String) (read : Bool) (st : EmailStoreState),
      moveEmail emailId location (moveEmail emailId location st)
          = moveEmail emailId location st ∧
      markAsRead emailId read (markAsRead emailId read st) = markAsRead emailId read st ∧
      addTag emailId tag (addTag emailId tag st) = addTag emailId tag st ∧
      removeTag emailId tag (removeTag emailId tag st) = removeTag emailId tag st ∧
      deleteEmail emailId (deleteEmail emailId st) = deleteEmail emailId st ∧
      toggleStarred emailId (toggleStarred emailId st) = st := by
  intro emailId location tag read st
  exact ⟨moveEmail_idem emailId location st, markAsRead_idem emailId read st,
         addTag_idem emailId tag st, removeTag_idem emailId tag st,
         deleteEmail_idem emailId st, toggleStarred_invol emailId st⟩

/-- C5: the reconnect logic schedules at most maxReconnectAttempts (5)
automatic attempts; the k-th attempt (k = attempts + 1 where applicable)
is scheduled after exactly min(1000 * 2 ^ k, 30000) milliseconds; the
delay is monotonically non-decreasing in the attempt number; once the
counter reaches the cap, attemptReconnect schedules nothing; and the
full delay sequence from a fresh connection is
[2000, 4000, 8000, 16000, 30000]. -/
theorem c5_reconnect_backoff :
    (∀ attempts, attempts < maxReconnectAttempts →
      attemptReconnect attempts
        = some (attempts + 1, min (1000 * 2 ^ (attempts + 1)) 30000)) ∧
    (∀ attempts, maxReconnectAttempts ≤ attempts → attemptReconnect attempts = none) ∧
    (∀ j k, j ≤ k → reconnectDelay j ≤ reconnectDelay k) ∧
    (∀ fuel attempts,
      (reconnectTrace fuel attempts).length ≤ maxReconnectAttempts - attempts) ∧
    reconnectTrace 5 0 = [2000, 4000, 8000, 16000, 30000] := by
  refine ⟨?_, ?_, ?_, ?_, by decide⟩
  · intro attempts h
    simp [attemptReconnect, h, reconnectDelay]
  · intro attempts h
    simp [attemptReconnect, Nat.not_lt.mpr h]
  · intro j k hjk
    unfold reconnectDelay
    exact min_le_min (Nat.mul_le_mul_left 1000 (Nat.pow_le_pow_right (by norm_num) hjk))
      le_rfl
  · intro fuel
    induction fuel with
    | zero => intro attempts; simp [reconnectTrace]
    | succ fuel ih =>
      intro attempts
      by_cases h : attempts < maxReconnectAttempts
      · have hx := ih (attempts + 1)
        simp only [reconnectTrace, attemptReconnect, h, if_true, List.length_cons]
        simp only [maxReconnectAttempts] at hx h ⊢
        omega
      · simp [reconnectTrace, attemptReconnect, h]

/-- C5 witness: concrete instances of the backoff facts, obtained from
c5_reconnect_backoff at attempts 0, 5 and delays 1 ≤ 2. -/
theorem c5_reconnect_backoff_witness :
    0 < maxReconnectAttempts ∧
    attemptReconnect 0 = some (1, min (1000 * 2 ^ 1) 30000) ∧
    attemptReconnect 5 = none ∧
    reconnectDelay 1 ≤ reconnectDelay 2 := by
  refine ⟨by decide, c5_reconnect_backoff.1 0 (by decide),
    c5_reconnect_backoff.2.1 5 (by decide), c5_reconnect_backoff.2.2.1 1 2 (by decide)⟩

lemma applyCall_email (api : WorkflowEmailAPI) (call : ApiCall) :
    (applyCall api call).email = api.email := by
  cases call <;> simp [applyCall] <;> split <;> rfl

lemma applyCall_actionsTaken (api : WorkflowEmailAPI) (call : ApiCall) :
    (applyCall api call).actionsTaken = api.actionsTaken ++ tokensOf call := by
  cases call <;> simp [applyCall, tokensOf] <;> split <;> simp

lemma runCalls_email_actions :
    ∀ (calls : List ApiCall) (api : WorkflowEmailAPI),
      (runCalls api calls).email = api.email ∧
      (runCalls api calls).actionsTaken = api.actionsTaken ++ (calls.map tokensOf).flatten := by
  intro calls
  induction calls with
  | nil => intro api; simp [runCalls]
  | cons call rest ih =>
    intro api
    have h := ih (applyCall api call)
    constructor
    · simpa [runCalls, applyCall_email] using h.1
    · have h2 := h.2
      simp only [runCalls, List.foldl_cons] at h2 ⊢
      rw [h2, applyCall_actionsTaken]
      simp [List.append_assoc]

/-- C9: running any sequence of intent-recording method calls against
the WorkflowEmailAPI capability object leaves the underlying email and
every read-only getter unchanged, and getActionsTaken returns exactly
the tokens the calls record, in call order (each call contributes its
token; addLabel/removeLabel with an empty, JS-falsy label contribute
none, as in the source guard). -/
theorem c9_capability_object_frame (email : Email) (calls : List ApiCall) :
    (runCalls (WorkflowEmailAPI.new email) calls).email = email ∧
    WorkflowEmailAPI.idGet (runCalls (WorkflowEmailAPI.new email) calls)
        = toString email.id ∧
    WorkflowEmailAPI.sender (runCalls (WorkflowEmailAPI.new email) calls) = email.from' ∧
    WorkflowEmailAPI.subjectGet (runCalls (WorkflowEmailAPI.new email) calls)
        = email.subject ∧
    WorkflowEmailAPI.body (runCalls (WorkflowEmailAPI.new email) calls) = email.preview ∧
    WorkflowEmailAPI.labels (runCalls (WorkflowEmailAPI.new email) calls) = email.tags ∧
    WorkflowEmailAPI.is_read (runCalls (WorkflowEmailAPI.new email) calls)
        = !email.unread ∧
    WorkflowEmailAPI.is_starred (runCalls (WorkflowEmailAPI.new email) calls)
        = email.starred ∧
    WorkflowEmailAPI.attachments (runCalls (WorkflowEmailAPI.new email) calls)
        = (if email.hasAttachment then ["attachment"] else []) ∧
    getActionsTaken (runCalls (WorkflowEmailAPI.new email) calls)
        = (calls.map tokensOf).flatten := by
  have h := runCalls_email_actions calls (WorkflowEmailAPI.new email)
  have he : (runCalls (WorkflowEmailAPI.new email) calls).email = email := h.1
  have ha : (runCalls (WorkflowEmailAPI.new email) calls).actionsTaken
      = (calls.map tokensOf).flatten := by
    have h2 := h.2
    rw [show (WorkflowEmailAPI.new email).actionsTaken = [] from rfl] at h2
    simpa using h2
  refine ⟨he, ?_, ?_, ?_, ?_, ?_, ?_, ?_, ?_, ?_⟩ <;>
    simp [WorkflowEmailAPI.idGet, WorkflowEmailAPI.sender, WorkflowEmailAPI.subjectGet,
          WorkflowEmailAPI.body, WorkflowEmailAPI.labels, WorkflowEmailAPI.is_read,
          WorkflowEmailAPI.is_starred, WorkflowEmailAPI.attachments, getActionsTaken,
          he, ha]

lemma runHookLoop_eq_map (eval : HookEval) (email : Email) (ctx : WorkflowContext) :
    ∀ hooks : List WorkflowHook,
      runHookLoop eval email ctx hooks = hooks.map (fun h => executeHook eval h email ctx) := by
  intro hooks
  induction hooks with
  | nil => rfl
  | cons h rest ih => simp [runHookLoop, ih]

lemma mem_getHooksForTrigger {hooks : List WorkflowHook} {trigger : TriggerEvent}
    {h : WorkflowHook} :
    h ∈ getHooksForTrigger hooks trigger ↔
      h ∈ hooks ∧ h.enabled = true ∧ h.trigger_event = trigger := by
  simp [getHooksForTrigger, List.mem_filter, and_assoc]

/-- C7: for every dispatch, the engine selects exactly the enabled hooks
whose trigger_event equals the dispatched trigger, keeps them in
hook-list order (the selection is a sublist of the hook list), executes
precisely that selection in order for each of the three entry points,
and a hook whose trigger_event differs from the dispatched trigger is
never selected — in particular an email_received hook never runs on an
email_closed or user_action dispatch and vice versa. -/
theorem c7_trigger_dispatch_selection
    (hooks : List WorkflowHook) (trigger : TriggerEvent) :
    (getHooksForTrigger hooks trigger).Sublist hooks ∧
    (∀ h ∈ getHooksForTrigger hooks trigger, h.enabled = true ∧ h.trigger_event = trigger) ∧
    (∀ h ∈ hooks, h.trigger_event ≠ trigger → h ∉ getHooksForTrigger hooks trigger) ∧
    (∀ (eval : HookEval) (email : Email) (ctx : WorkflowContext) (now : Nat)
        (action : UserAction) (nowIso : String),
      (executeEmailWorkflows eval hooks email ctx now).1
        = (getHooksForTrigger hooks TriggerEvent.email_received).map
            (fun h => executeHook eval h email ctx) ∧
      (executeEmailCloseWorkflows eval hooks email ctx now).1
        = (getHooksForTrigger hooks TriggerEvent.email_closed).map
            (fun h => executeHook eval h email ctx) ∧
      (executeActionWorkflows eval hooks action ctx now nowIso).1
        = (getHooksForTrigger hooks TriggerEvent.user_action).map
            (fun h => executeHook eval h (actionToEmail action nowIso) ctx)) := by
  refine ⟨List.filter_sublist hooks, ?_, ?_, ?_⟩
  · intro h hmem
    exact (mem_getHooksForTrigger.mp hmem).2
  · intro h _ hne hmem
    exact hne (mem_getHooksForTrigger.mp hmem).2.2
  · intro eval email ctx now action nowIso
    refine ⟨?_, ?_, ?_⟩ <;>
      simp [executeEmailWorkflows, executeEmailCloseWorkflows, executeActionWorkflows,
            executeWorkflowsFor, runHookLoop_eq_map]

/-- Hook fixture: an enabled email_received hook whose body will throw
in the demo oracle. -/
def hookA : WorkflowHook :=
  { id := "A", name := "a", description := "throws"
    trigger_event := TriggerEvent.email_received, enabled := true
    function_code := "throw new Error('boom')", created_at := 0
    execution_count := 0, last_executed := none }

/-- Hook fixture: an enabled email_received hook whose body archives. -/
def hookB : WorkflowHook :=
  { id := "B", name := "b", description := "archives"
    trigger_event := TriggerEvent.email_received, enabled := true
    function_code := "email.archive()", created_at := 0
    execution_count := 0, last_executed := none }

/-- Hook fixture: a disabled email_received hook. -/
def hookC : WorkflowHook :=
  { id := "C", name := "c", description := "disabled"
    trigger_event := TriggerEvent.email_received, enabled := false
    function_code := "email.delete()", created_at := 0
    execution_count := 3, last_executed := some 7 }

/-- Hook fixture: an enabled email_closed hook. -/
def hookD : WorkflowHook :=
  { id := "D", name := "d", description := "on close"
    trigger_event := TriggerEvent.email_closed, enabled := true
    function_code := "email.star()", created_at := 0
    execution_count := 0, last_executed := none }

/-- Demo oracle: hook A throws with message "boom", every other hook
records a single archive intent. -/
def demoEval : HookEval :=
  fun hook _ _ =>
    if hook.id = "A" then Except.error "boom" else Except.ok ["archive"]

/-- Demo dispatch context. -/
def demoCtx : WorkflowContext :=
  { user_id := "user123", location := "home", time_of_day := 10
    day_of_week := 2, session_id := "s1" }

/-- C7 witness: concrete dispatch over [hookA, hookB, hookC, hookD] —
the email_received selection is [hookA, hookB] (hookC is disabled, hookD
has another trigger), and hookD is not selected for email_received. -/
theorem c7_trigger_dispatch_selection_witness :
    getHooksForTrigger [hookA, hookB, hookC, hookD] TriggerEvent.email_received
        = [hookA, hookB] ∧
    (hookD ∈ ([hookA, hookB, hookC, hookD] : List WorkflowHook)) ∧
    hookD.trigger_event ≠ TriggerEvent.email_received ∧
    hookD ∉ getHooksForTrigger [hookA, hookB, hookC, hookD] TriggerEvent.email_received := by
  refine ⟨by decide, by decide, by decide, ?_⟩
  exact (c7_trigger_dispatch_selection [hookA, hookB, hookC, hookD]
    TriggerEvent.email_received).2.2.1 hookD (by decide) (by decide)

/-- C1: when the body of a selected hook throws, its WorkflowResult is
the failed record with success = false, actions_taken = [] and error set
to the exception message; every selected hook still yields a result (the
result list has one entry per selected hook, in order), and a later
selected hook whose body returns normally still yields success = true
with its recorded actions. -/
theorem c1_hook_throw_does_not_abort
    (eval : HookEval) (hooks : List WorkflowHook) (email : Email)
    (ctx : WorkflowContext) (now : Nat) (i j : Nat) (msg : String) (acts : List String)
    (hi : i < (getHooksForTrigger hooks TriggerEvent.email_received).length)
    (hj : j < (getHooksForTrigger hooks TriggerEvent.email_received).length)
    (_hij : i < j)
    (hA : eval ((getHooksForTrigger hooks TriggerEvent.email_received).get ⟨i, hi⟩)
        email ctx = Except.error msg)
    (hB : eval ((getHooksForTrigger hooks TriggerEvent.email_received).get ⟨j, hj⟩)
        email ctx = Except.ok acts) :
    (executeEmailWorkflows eval hooks email ctx now).1.length
        = (getHooksForTrigger hooks TriggerEvent.email_received).length ∧
    ∀ (hi' : i < (executeEmailWorkflows eval hooks email ctx now).1.length)
      (hj' : j < (executeEmailWorkflows eval hooks email ctx now).1.length),
      (executeEmailWorkflows eval hooks email ctx now).1.get ⟨i, hi'⟩
        = { hook_id := ((getHooksForTrigger hooks TriggerEvent.email_received).get ⟨i, hi⟩).id
            success := false, actions_taken := [], email_id := none
            error := some msg, execution_time := 0 } ∧
      (executeEmailWorkflows eval hooks email ctx now).1.get ⟨j, hj'⟩
        = { hook_id := ((getHooksForTrigger hooks TriggerEvent.email_received).get ⟨j, hj⟩).id
            success := true, actions_taken := acts
            email_id := some (toString email.id), error := none, execution_time := 0 } := by
  have hres : (executeEmailWorkflows eval hooks email ctx now).1
      = (getHooksForTrigger hooks TriggerEvent.email_received).map
          (fun h => executeHook eval h email ctx) := by
    simp [executeEmailWorkflows, executeWorkflowsFor, runHookLoop_eq_map]
  simp only [List.get_eq_getElem] at hA hB
  constructor
  · simp [hres]
  · intro hi' hj'
    constructor
    · simp only [hres, List.get_eq_getElem, List.getElem_map]
      rw [executeHook, hA]
    · simp only [hres, List.get_eq_getElem, List.getElem_map]
      rw [executeHook, hB]

/-- C1 witness: dispatching over [hookA, hookB] with the demo oracle —
hookA throws "boom" and yields the failed result, hookB still executes
and yields a successful result. -/
theorem c1_hook_throw_does_not_abort_witness :
    (executeEmailWorkflows demoEval [hookA, hookB] demoEmail demoCtx 0).1.length
        = (getHooksForTrigger [hookA, hookB] TriggerEvent.email_received).length ∧
    (executeEmailWorkflows demoEval [hookA, hookB] demoEmail demoCtx 0).1.get
        ⟨0, by decide⟩
      = { hook_id := "A", success := false, actions_taken := [], email_id := none
          error := some "boom", execution_time := 0 } ∧
    (executeEmailWorkflows demoEval [hookA, hookB] demoEmail demoCtx 0).1.get
        ⟨1, by decide⟩
      = { hook_id := "B", success := true, actions_taken := ["archive"]
          email_id := some "1", error := none, execution_time := 0 } := by
  have h := c1_hook_throw_does_not_abort demoEval [hookA, hookB] demoEmail demoCtx 0
    0 1 "boom" ["archive"] (by decide) (by decide) (by decide) rfl rfl
  have h2 := h.2 (by decide) (by decide)
  exact ⟨h.1, by simpa using h2.1, by simpa using h2.2⟩

lemma updateHookStats_disabled (eval : HookEval) (trigger : TriggerEvent)
    (email : Email) (ctx : WorkflowContext) (now : Nat) (hooks : List WorkflowHook)
    (i : Nat) (hi : i < hooks.length)
    (hdis : (hooks.get ⟨i, hi⟩).enabled = false) :
    ∀ (hi' : i < (updateHookStats eval trigger email ctx now hooks).length),
      (updateHookStats eval trigger email ctx now hooks).get ⟨i, hi'⟩
        = hooks.get ⟨i, hi⟩ := by
  intro hi'
  simp only [updateHookStats, List.get_eq_getElem, List.getElem_map] at *
  simp [hdis]

lemma results_from_enabled (eval : HookEval) (trigger : TriggerEvent)
    (email : Email) (ctx : WorkflowContext) (now : Nat) (hooks : List WorkflowHook) :
    ∀ r ∈ (executeWorkflowsFor eval trigger email ctx now hooks).1,
      ∃ h ∈ hooks, h.enabled = true ∧ h.trigger_event = trigger
        ∧ r = executeHook eval h email ctx := by
  intro r hr
  simp only [executeWorkflowsFor, runHookLoop_eq_map, List.mem_map] at hr
  obtain ⟨h, hmem, hrfl⟩ := hr
  obtain ⟨hh, hen, htr⟩ := mem_getHooksForTrigger.mp hmem
  exact ⟨h, hh, hen, htr, hrfl.symm⟩

/-- C10: a hook whose enabled flag is false is inert on every dispatch:
for each of executeEmailWorkflows, executeActionWorkflows and
executeEmailCloseWorkflows, the hook at a disabled position in the hook
list is returned unchanged (execution_count and last_executed included),
it is never selected for any trigger, and every produced WorkflowResult
originates from an enabled hook matching the dispatched trigger. -/
theorem c10_disabled_hook_inert
    (eval : HookEval) (hooks : List WorkflowHook) (email : Email)
    (ctx : WorkflowContext) (now : Nat) (action : UserAction) (nowIso : String)
    (i : Nat) (hi : i < hooks.length)
    (hdis : (hooks.get ⟨i, hi⟩).enabled = false) :
    (∀ trigger, hooks.get ⟨i, hi⟩ ∉ getHooksForTrigger hooks trigger) ∧
    (∀ (hi' : i < (executeEmailWorkflows eval hooks email ctx now).2.length),
      (executeEmailWorkflows eval hooks email ctx now).2.get ⟨i, hi'⟩
        = hooks.get ⟨i, hi⟩) ∧
    (∀ (hi' : i < (executeEmailCloseWorkflows eval hooks email ctx now).2.length),
      (executeEmailCloseWorkflows eval hooks email ctx now).2.get ⟨i, hi'⟩
        = hooks.get ⟨i, hi⟩) ∧
    (∀ (hi' : i < (executeActionWorkflows eval hooks action ctx now nowIso).2.length),
      (executeActionWorkflows eval hooks action ctx now nowIso).2.get ⟨i, hi'⟩
        = hooks.get ⟨i, hi⟩) ∧
    (∀ r ∈ (executeEmailWorkflows eval hooks email ctx now).1,
      ∃ h ∈ hooks, h.enabled = true ∧ h.trigger_event = TriggerEvent.email_received
        ∧ r = executeHook eval h email ctx) ∧
    (∀ r ∈ (executeEmailCloseWorkflows eval hooks email ctx now).1,
      ∃ h ∈ hooks, h.enabled = true ∧ h.trigger_event = TriggerEvent.email_closed
        ∧ r = executeHook eval h email ctx) ∧
    (∀ r ∈ (executeActionWorkflows eval hooks action ctx now nowIso).1,
      ∃ h ∈ hooks, h.enabled = true ∧ h.trigger_event = TriggerEvent.user_action
        ∧ r = executeHook eval h (actionToEmail action nowIso) ctx) := by
  refine ⟨?_, ?_, ?_, ?_, ?_, ?_, ?_⟩
  · intro trigger hmem
    have := (mem_getHooksForTrigger.mp hmem).2.1
    rw [hdis] at this
    exact Bool.false_ne_true this
  · exact updateHookStats_disabled eval TriggerEvent.email_received email ctx now hooks i hi hdis
  · exact updateHookStats_disabled eval TriggerEvent.email_closed email ctx now hooks i hi hdis
  · exact updateHookStats_disabled eval TriggerEvent.user_action (actionToEmail action nowIso)
      ctx now hooks i hi hdis
  · exact results_from_enabled eval TriggerEvent.email_received email ctx now hooks
  · exact results_from_enabled eval TriggerEvent.email_closed email ctx now hooks
  · exact results_from_enabled eval TriggerEvent.user_action (actionToEmail action nowIso)
      ctx now hooks

/-- Demo user action used for witnesses: a star on a tracked email. -/
def demoAction : UserAction :=
  { action := ActionKind.star
    email := { id := "1", sender := "alice", subject := "hello", labels := [] }
    context := { location := "detail" }
    duration := none }

/-- C10 witness: in the list [hookA, hookB, hookC], the disabled hookC
(position 2) is never selected and keeps execution_count = 3 and
last_executed = some 7 across an email_received dispatch. -/
theorem c10_disabled_hook_inert_witness :
    ([hookA, hookB, hookC].get ⟨2, by decide⟩).enabled = false ∧
    hookC ∉ getHooksForTrigger [hookA, hookB, hookC] TriggerEvent.email_received ∧
    (executeEmailWorkflows demoEval [hookA, hookB, hookC] demoEmail demoCtx 9).2.get
        ⟨2, by decide⟩ = hookC := by
  have h := c10_disabled_hook_inert demoEval [hookA, hookB, hookC] demoEmail demoCtx 9
    demoAction "iso" 2 (by decide) (by decide)
  exact ⟨by decide, h.1 TriggerEvent.email_received, h.2.1 (by decide)⟩

lemma trackBurst_spec :
    ∀ (actions : List UserAction) (st : WorkflowServiceState),
      st.tracker = true → actions ≠ [] →
      (trackBurst actions st).pendingActions = st.pendingActions ++ actions ∧
      (trackBurst actions st).debounceTimer
          = some (st.nextTimerId + actions.length - 1) ∧
      (trackBurst actions st).nextTimerId = st.nextTimerId + actions.length ∧
      (trackBurst actions st).sentActions = st.sentActions ∧
      (trackBurst actions st).analyzedActions = st.analyzedActions ∧
      (trackBurst actions st).flushCount = st.flushCount ∧
      (trackBurst actions st).tracker = true ∧
      (trackBurst actions st).userId = st.userId := by
  intro actions
  induction actions with
  | nil => intro st _ hne; exact absurd rfl hne
  | cons a rest ih =>
    intro st htr _
    have hstep : trackBurst (a :: rest) st = trackBurst rest (trackAction a st) := rfl
    have h1 : (trackAction a st).pendingActions = st.pendingActions ++ [a] := by
      simp [trackAction, htr]
    have h2 : (trackAction a st).debounceTimer = some st.nextTimerId := by
      simp [trackAction, htr]
    have h3 : (trackAction a st).nextTimerId = st.nextTimerId + 1 := by
      simp [trackAction, htr]
    have h4 : (trackAction a st).sentActions = st.sentActions := by
      simp [trackAction, htr]
    have h5 : (trackAction a st).analyzedActions = st.analyzedActions := by
      simp [trackAction, htr]
    have h6 : (trackAction a st).flushCount = st.flushCount := by
      simp [trackAction, htr]
    have h7 : (trackAction a st).tracker = true := by
      simp [trackAction, htr]
    have h8 : (trackAction a st).userId = st.userId := by
      simp [trackAction, htr]
    by_cases hr : rest = []
    · subst hr
      have hb : trackBurst ([] : List UserAction) (trackAction a st) = trackAction a st := rfl
      rw [hstep, hb]
      exact ⟨by rw [h1], by rw [h2]; simp, by rw [h3]; simp, h4, h5, h6, h7, h8⟩
    · have hx := ih (trackAction a st) h7 hr
      rw [hstep]
      have hlen : 1 ≤ rest.length := by
        cases rest with
        | nil => exact absurd rfl hr
        | cons b l => simp
      refine ⟨?_, ?_, ?_, ?_, ?_, ?_, hx.2.2.2.2.2.2.1, ?_⟩
      · rw [hx.1, h1]; simp
      · rw [hx.2.1, h3]
        congr 1
        simp only [List.length_cons]
        omega
      · rw [hx.2.2.1, h3]
        simp only [List.length_cons]
        omega
      · rw [hx.2.2.2.1, h4]
      · rw [hx.2.2.2.2.1, h5]
      · rw [hx.2.2.2.2.2.1, h6]
      · rw [hx.2.2.2.2.2.2.2, h8]

lemma fireAll_inactive :
    ∀ (gens : List Nat) (st : WorkflowServiceState),
      (∀ g ∈ gens, st.debounceTimer ≠ some g) → fireAll gens st = st := by
  intro gens
  induction gens with
  | nil => intro st _; rfl
  | cons g rest ih =>
    intro st hg
    have h1 : fireTimer g st = st := by
      simp [fireTimer, hg g (List.mem_cons_self g rest)]
    show fireAll rest (fireTimer g st) = st
    rw [h1]
    exact ih st (fun g' hg' => hg g' (List.mem_cons_of_mem g hg'))

lemma processPendingActions_spec (st : WorkflowServiceState) (last : UserAction)
    (hlast : st.pendingActions.getLast? = some last) :
    (processPendingActions st).sentActions = st.sentActions ++ st.pendingActions ∧
    (processPendingActions st).analyzedActions
        = st.analyzedActions
            ++ (if st.userId.isSome && shouldAnalyzeForPatterns last then [last] else []) ∧
    (processPendingActions st).pendingActions = [] ∧
    (processPendingActions st).debounceTimer = none ∧
    (processPendingActions st).flushCount = st.flushCount + 1 := by
  unfold processPendingActions
  rw [hlast]
  by_cases hz : st.userId.isSome && shouldAnalyzeForPatterns last <;> simp [hz]

/-- C2: for a non-empty burst of N actions tracked within one debounce
window (each track cancels and rearms the timer), firing all N timer
generations armed during the burst produces exactly one flush: the
cancelled generations are no-ops, the flush sends all N actions to the
channel client in arrival order, hands only the last action of the batch
to local user_action hook execution (and only when it passes the
eligibility filter with a user set), and leaves the pending batch empty
with no armed timer. -/
theorem c2_debounce_batch_flush
    (st : WorkflowServiceState) (actions : List UserAction) (last : UserAction)
    (htr : st.tracker = true) (hpend : st.pendingActions = [])
    (hne : actions ≠ []) (hlast : actions.getLast? = some last) :
    (fireAll (List.range' st.nextTimerId actions.length)
        (trackBurst actions st)).flushCount = st.flushCount + 1 ∧
    (fireAll (List.range' st.nextTimerId actions.length)
        (trackBurst actions st)).sentActions = st.sentActions ++ actions ∧
    (fireAll (List.range' st.nextTimerId actions.length)
        (trackBurst actions st)).analyzedActions
      = st.analyzedActions
          ++ (if st.userId.isSome && shouldAnalyzeForPatterns last then [last] else []) ∧
    (fireAll (List.range' st.nextTimerId actions.length)
        (trackBurst actions st)).pendingActions = [] ∧
    (fireAll (List.range' st.nextTimerId actions.length)
        (trackBurst actions st)).debounceTimer = none := by
  obtain ⟨hp, hd, hn, hs, ha, hf, ht, hu⟩ := trackBurst_spec actions st htr hne
  have hlen : 1 ≤ actions.length := by
    cases actions with
    | nil => exact absurd rfl hne
    | cons a l => simp
  set st1 := trackBurst actions st with hst1
  -- split the generation range into the cancelled ones and the armed one
  have hsplit : List.range' st.nextTimerId actions.length
      = List.range' st.nextTimerId (actions.length - 1)
          ++ [st.nextTimerId + (actions.length - 1)] := by
    have : actions.length = (actions.length - 1) + 1 := by omega
    rw [this, List.range'_concat]
    simp
  have hfire1 : fireAll (List.range' st.nextTimerId (actions.length - 1)) st1 = st1 := by
    apply fireAll_inactive
    intro g hg
    rw [hd]
    intro hcontra
    have hb := List.mem_range'_1.mp hg
    have : g = st.nextTimerId + actions.length - 1 := by
      exact (Option.some.injEq _ _).mp hcontra.symm
    omega
  have hstep : fireAll (List.range' st.nextTimerId actions.length) st1
      = fireTimer (st.nextTimerId + (actions.length - 1)) st1 := by
    rw [hsplit]
    unfold fireAll
    rw [List.foldl_append]
    show fireAll [st.nextTimerId + (actions.length - 1)]
        (fireAll (List.range' st.nextTimerId (actions.length - 1)) st1)
      = fireTimer (st.nextTimerId + (actions.length - 1)) st1
    rw [hfire1]
    rfl
  have harmed : st1.debounceTimer = some (st.nextTimerId + (actions.length - 1)) := by
    rw [hd]
    congr 1
    omega
  have hpend1 : st1.pendingActions = actions := by rw [hp, hpend]; simp
  have hlast1 : st1.pendingActions.getLast? = some last := by rw [hpend1]; exact hlast
  have hflush : fireTimer (st.nextTimerId + (actions.length - 1)) st1
      = processPendingActions st1 := by
    simp [fireTimer, harmed]
  obtain ⟨ps, pa, pp, pd, pf⟩ := processPendingActions_spec st1 last hlast1
  rw [hstep, hflush]
  exact ⟨by rw [pf, hf], by rw [ps, hs, hpend1], by rw [pa, ha, hu], pp, pd⟩

/-- Initial WorkflowService state after initialize("user123"): tracker
connected, empty pending batch, no armed timer. -/
def demoSvc : WorkflowServiceState :=
  { pendingActions := [], debounceTimer := none, nextTimerId := 0
    sentActions := [], analyzedActions := [], flushCount := 0
    tracker := true, userId := some "user123" }

/-- Second demo action of the burst. -/
def demoAction2 : UserAction :=
  { action := ActionKind.star
    email := { id := "2", sender := "bob", subject := "second", labels := [] }
    context := { location := "home" }
    duration := none }

/-- Third demo action of the burst (an eligible star action). -/
def demoAction3 : UserAction :=
  { action := ActionKind.star
    email := { id := "3", sender := "carol", subject := "third", labels := [] }
    context := { location := "home" }
    duration := none }

/-- C2 witness: tracking three star actions in one debounce window and
firing all three armed timer generations flushes exactly once, sends the
three actions in order, and analyzes only the third. -/
theorem c2_debounce_batch_flush_witness :
    (fireAll (List.range' demoSvc.nextTimerId 3)
        (trackBurst [demoAction, demoAction2, demoAction3] demoSvc)).flushCount
      = demoSvc.flushCount + 1 ∧
    (fireAll (List.range' demoSvc.nextTimerId 3)
        (trackBurst [demoAction, demoAction2, demoAction3] demoSvc)).sentActions
      = demoSvc.sentActions ++ [demoAction, demoAction2, demoAction3] ∧
    (fireAll (List.range' demoSvc.nextTimerId 3)
        (trackBurst [demoAction, demoAction2, demoAction3] demoSvc)).analyzedActions
      = demoSvc.analyzedActions
          ++ (if demoSvc.userId.isSome && shouldAnalyzeForPatterns demoAction3
              then [demoAction3] else []) := by
  have h := c2_debounce_batch_flush demoSvc [demoAction, demoAction2, demoAction3]
    demoAction3 rfl rfl (by decide) rfl
  exact ⟨h.1, h.2.1, h.2.2.1⟩

/-- C8: the pattern-analysis eligibility predicate accepts a UserAction
exactly when its kind is one of star, unstar, delete, archive,
add_label, remove_label, mark_read, mark_unread, move_to_spam,
move_to_trash; and a flush whose most recent action fails the predicate
still sends every batched action to the channel client while handing
nothing to local user_action hook execution. -/
theorem c8_intentional_allowlist
    (a : UserAction) (st : WorkflowServiceState) (last : UserAction)
    (hlast : st.pendingActions.getLast? = some last)
    (hno : shouldAnalyzeForPatterns last = false) :
    (shouldAnalyzeForPatterns a = true ↔
      (a.action = ActionKind.star ∨ a.action = ActionKind.unstar ∨
       a.action = ActionKind.delete ∨ a.action = ActionKind.archive ∨
       a.action = ActionKind.add_label ∨ a.action = ActionKind.remove_label ∨
       a.action = ActionKind.mark_read ∨ a.action = ActionKind.mark_unread ∨
       a.action = ActionKind.move_to_spam ∨ a.action = ActionKind.move_to_trash)) ∧
    (processPendingActions st).sentActions = st.sentActions ++ st.pendingActions ∧
    (processPendingActions st).analyzedActions = st.analyzedActions := by
  obtain ⟨hs, ha, _, _, _⟩ := processPendingActions_spec st last hlast
  refine ⟨?_, hs, ?_⟩
  · obtain ⟨act, em, cx, du⟩ := a
    cases act <;> simp [shouldAnalyzeForPatterns, intentionalActions]
  · rw [ha, hno]
    simp

/-- A non-eligible tracked action: opening an email. -/
def demoOpenAction : UserAction :=
  { action := ActionKind.open'
    email := { id := "4", sender := "dave", subject := "opened", labels := [] }
    context := { location := "home" }
    duration := none }

/-- Service state holding one pending non-eligible action. -/
def demoSvcOpen : WorkflowServiceState :=
  { pendingActions := [demoOpenAction], debounceTimer := some 0, nextTimerId := 1
    sentActions := [], analyzedActions := [], flushCount := 0
    tracker := true, userId := some "user123" }

/-- C8 witness: the open action is not eligible, and flushing a batch
ending in it reports the action but analyzes nothing. -/
theorem c8_intentional_allowlist_witness :
    demoSvcOpen.pendingActions.getLast? = some demoOpenAction ∧
    shouldAnalyzeForPatterns demoOpenAction = false ∧
    ¬ (shouldAnalyzeForPatterns demoOpenAction = true) ∧
    (processPendingActions demoSvcOpen).sentActions = [demoOpenAction] ∧
    (processPendingActions demoSvcOpen).analyzedActions = [] := by
  have h := c8_intentional_allowlist demoOpenAction demoSvcOpen demoOpenAction rfl
    (by decide)
  refine ⟨rfl, by decide, ?_, by simpa using h.2.1, by simpa using h.2.2⟩
  intro hcontra
  rcases h.1.mp hcontra with h' | h' | h' | h' | h' | h' | h' | h' | h' | h' <;>
    exact absurd h' (by decide)

lemma cleanup_fields (st : SuggestionState) (hcb : st.hasCleanupCallback = true) :
    (cleanupOldSuggestions st).activeSuggestionIds = [] ∧
    (cleanupOldSuggestions st).cleanupCalls
        = st.cleanupCalls ++ st.activeSuggestionIds ∧
    (cleanupOldSuggestions st).hasCleanupCallback = true := by
  unfold cleanupOldSuggestions
  by_cases hact : st.activeSuggestionIds = [] <;> simp [hact, hcb]

lemma suggestionStep_hasCleanup (st : SuggestionState) (ev : SuggestionEvent)
    (hcb : st.hasCleanupCallback = true) :
    (suggestionStep st ev).hasCleanupCallback = true := by
  cases ev with
  | arrive id =>
    show (cleanupOldSuggestions st).hasCleanupCallback = true
    exact (cleanup_fields st hcb).2.2
  | createWorkflow => exact (cleanup_fields st hcb).2.2
  | registerCleanup => rfl

lemma arrive_effect (st : SuggestionState) (id : String)
    (hcb : st.hasCleanupCallback = true) :
    (suggestionStep st (SuggestionEvent.arrive id)).activeSuggestionIds = [id] ∧
    (suggestionStep st (SuggestionEvent.arrive id)).cleanupCalls
        = st.cleanupCalls ++ st.activeSuggestionIds := by
  obtain ⟨ha, hc, _⟩ := cleanup_fields st hcb
  unfold suggestionStep
  exact ⟨by simp [ha, setInsert], by simp [hc]⟩

/-- Suggestion lifecycle state with no cleanup callback registered. -/
def noCbState : SuggestionState :=
  { activeSuggestionIds := []
    hasCleanupCallback := false
    cleanupCalls := [] }

/-- Suggestion lifecycle state with the cleanup callback registered and
no active suggestion. -/
def cbState : SuggestionState :=
  { activeSuggestionIds := []
    hasCleanupCallback := true
    cleanupCalls := [] }

/-- Suggestion lifecycle state with the cleanup callback registered and
suggestion s1 active. -/
def cbStateS1 : SuggestionState :=
  { activeSuggestionIds := ["s1"]
    hasCleanupCallback := true
    cleanupCalls := [] }

/-- C3 counterexample: with no suggestion-cleanup callback registered,
two suggestions arriving in sequence leave two active suggestions (the
active set exceeds one element) and the first suggestion receives no
cleanup invocation before the second becomes active. -/
theorem c3_no_callback_counterexample :
    (suggestionRun noCbState
        [SuggestionEvent.arrive "s1", SuggestionEvent.arrive "s2"]).activeSuggestionIds
      = ["s1", "s2"] ∧
    ¬ ((suggestionRun noCbState
        [SuggestionEvent.arrive "s1",
         SuggestionEvent.arrive "s2"]).activeSuggestionIds.length ≤ 1) ∧
    (suggestionRun noCbState
        [SuggestionEvent.arrive "s1", SuggestionEvent.arrive "s2"]).cleanupCalls = [] := by
  decide

/-- C3 (amended): provided a suggestion-cleanup callback has been
registered (and none of the events unregisters it), the active set never
holds more than one suggestion along any event trace, and on each new
suggestion arrival or direct hook creation every currently active
suggestion receives exactly one cleanup-callback invocation and is
removed from the active set before the new suggestion is added (the
arrival leaves exactly the new id active).  Without a registered
callback the source skips both the invocation and the removal, so the
original claim fails (see the counterexample). -/
theorem c3_single_active_suggestion
    (st0 st : SuggestionState) (evs : List SuggestionEvent) (id : String)
    (hcb0 : st0.hasCleanupCallback = true)
    (hinv0 : st0.activeSuggestionIds.length ≤ 1)
    (hcb : st.hasCleanupCallback = true) :
    ((suggestionRun st0 evs).activeSuggestionIds.length ≤ 1 ∧
     (suggestionRun st0 evs).hasCleanupCallback = true) ∧
    ((suggestionStep st (SuggestionEvent.arrive id)).activeSuggestionIds = [id] ∧
     (suggestionStep st (SuggestionEvent.arrive id)).cleanupCalls
        = st.cleanupCalls ++ st.activeSuggestionIds) ∧
    ((suggestionStep st SuggestionEvent.createWorkflow).activeSuggestionIds = [] ∧
     (suggestionStep st SuggestionEvent.createWorkflow).cleanupCalls
        = st.cleanupCalls ++ st.activeSuggestionIds) := by
  refine ⟨?_, arrive_effect st id hcb, ?_⟩
  · induction evs generalizing st0 with
    | nil => exact ⟨hinv0, hcb0⟩
    | cons ev evs ih =>
      have hstep : suggestionRun st0 (ev :: evs)
          = suggestionRun (suggestionStep st0 ev) evs := rfl
      rw [hstep]
      apply ih
      · exact suggestionStep_hasCleanup st0 ev hcb0
      · cases ev with
        | arrive id' =>
          rw [(arrive_effect st0 id' hcb0).1]
          simp
        | createWorkflow =>
          show (cleanupOldSuggestions st0).activeSuggestionIds.length ≤ 1
          rw [(cleanup_fields st0 hcb0).1]
          simp
        | registerCleanup =>
          exact hinv0
  · have h := cleanup_fields st hcb
    exact ⟨h.1, h.2.1⟩

/-- C3 witness: with the callback registered and suggestion s1 active,
the arrival of s2 cleans up s1 exactly once and leaves only s2 active;
the invariant holds along the concrete trace register, s1, s2. -/
theorem c3_single_active_suggestion_witness :
    ((suggestionRun cbState
        [SuggestionEvent.registerCleanup, SuggestionEvent.arrive "s1",
         SuggestionEvent.arrive "s2"]).activeSuggestionIds.length ≤ 1) ∧
    (suggestionStep cbStateS1 (SuggestionEvent.arrive "s2")).activeSuggestionIds
      = ["s2"] ∧
    (suggestionStep cbStateS1 (SuggestionEvent.arrive "s2")).cleanupCalls = ["s1"] := by
  have h := c3_single_active_suggestion cbState cbStateS1
    [SuggestionEvent.registerCleanup, SuggestionEvent.arrive "s1",
     SuggestionEvent.arrive "s2"] "s2" rfl (by decide) rfl
  exact ⟨h.1.1, by simpa using h.2.1.1, by simpa using h.2.1.2⟩

lemma applyOneAction_unknown (emailId : Int) (st : EmailStoreState) (t : String)
    (hu : recognizedToken t = false) :
    applyOneAction emailId st t = (st, []) := by
  have h1 : ¬(t = "delete") := fun h => by rw [h] at hu; exact absurd hu (by decide)
  have h2 : ¬(t = "archive") := fun h => by rw [h] at hu; exact absurd hu (by decide)
  have h3 : ¬(t = "star") := fun h => by rw [h] at hu; exact absurd hu (by decide)
  have h4 : ¬(t = "unstar") := fun h => by rw [h] at hu; exact absurd hu (by decide)
  have h5 : ¬(t = "mark_read") := fun h => by rw [h] at hu; exact absurd hu (by decide)
  have h6 : ¬(t = "mark_unread") := fun h => by rw [h] at hu; exact absurd hu (by decide)
  have h9 : ¬(t = "move_to_spam") := fun h => by rw [h] at hu; exact absurd hu (by decide)
  have h10 : ¬(t = "move_to_trash") := fun h => by rw [h] at hu; exact absurd hu (by decide)
  unfold applyOneAction
  rw [if_neg h1, if_neg h2, if_neg h3, if_neg h4, if_neg h5, if_neg h6]
  by_cases hsw : strStartsWith t "add_label:" = true
  · rw [if_pos hsw]
    by_cases hlbl : splitColon1 t = ""
    · simp [hlbl]
    · cases hm : labelMap (strToLower (splitColon1 t)) with
      | none => simp [hlbl, hm]
      | some tag =>
        exfalso
        rw [recognizedToken] at hu
        simp at hu
        exact absurd (hu.1.1.1.2 hsw hlbl) (by simp [hm])
  · rw [if_neg hsw]
    by_cases hsw2 : strStartsWith t "remove_label:" = true
    · rw [if_pos hsw2]
      by_cases hlbl : splitColon1 t = ""
      · simp [hlbl]
      · cases hm : labelMap (strToLower (splitColon1 t)) with
        | none => simp [hlbl, hm]
        | some tag =>
          exfalso
          rw [recognizedToken] at hu
          simp at hu
          exact absurd (hu.1.1.2 hsw2 hlbl) (by simp [hm])
    · rw [if_neg hsw2, if_neg h9, if_neg h10]

lemma applyActionsLoop_skip (emailId : Int) (pre post : List String) (t : String)
    (hu : recognizedToken t = false) :
    ∀ st : EmailStoreState,
      applyActionsLoop emailId st (pre ++ t :: post)
        = applyActionsLoop emailId st (pre ++ post) := by
  induction pre with
  | nil =>
    intro st
    simp only [List.nil_append]
    simp [applyActionsLoop, applyOneAction_unknown emailId st t hu]
  | cons p pre ih =>
    intro st
    simp only [List.cons_append]
    cases hpa : applyOneAction emailId st p with
    | mk st' applied =>
      simp [applyActionsLoop, hpa, ih st']

/-- C6 counterexample: the token "bogus_action" matches no branch of the
dispatch chain; applying a WorkflowResult containing it leaves the store
unchanged and applies nothing, but the warnings log is empty — the
source skips unrecognized tokens silently, with no logged warning,
refuting the "skipped with a logged warning" part of the claim. -/
theorem c6_unknown_token_no_warning_counterexample :
    recognizedToken "bogus_action" = false ∧
    applyWorkflowActions ["bogus_action"] (some "1") demoStore = (demoStore, [], []) := by
  decide

/-- C6 (amended): an unknown or malformed action token (unrecognized
kind, or an add_label/remove_label token whose label is missing or not
in the known label map) is skipped silently — no warning is logged for
it — it never aborts, it leaves the mailbox state unchanged, and it does
not prevent the remaining tokens of the same result from being applied:
deleting it from the token list changes neither the resulting store
state nor the applied-action summary, and the warnings log of a
dispatch with a parseable email id is empty. -/
theorem c6_unknown_token_skipped
    (emailId : Int) (st : EmailStoreState) (pre post : List String) (t : String)
    (eid : String) (n : Int)
    (hu : recognizedToken t = false)
    (hparse : strToInt eid = some n) :
    applyOneAction emailId st t = (st, []) ∧
    applyActionsLoop emailId st (pre ++ t :: post)
        = applyActionsLoop emailId st (pre ++ post) ∧
    (applyWorkflowActions (pre ++ t :: post) (some eid) st).1
        = (applyWorkflowActions (pre ++ post) (some eid) st).1 ∧
    (applyWorkflowActions (pre ++ t :: post) (some eid) st).2.1
        = (applyWorkflowActions (pre ++ post) (some eid) st).2.1 ∧
    (applyWorkflowActions (pre ++ t :: post) (some eid) st).2.2 = [] := by
  refine ⟨applyOneAction_unknown emailId st t hu, applyActionsLoop_skip emailId pre post t hu st,
    ?_, ?_, ?_⟩ <;>
    simp [applyWorkflowActions, hparse, applyActionsLoop_skip n pre post t hu st]

/-- C6 witness: dropping the unknown token "bogus_action" between "star"
and "mark_unread" changes nothing: state and summary agree with the run
without it, and no warning is logged. -/
theorem c6_unknown_token_skipped_witness :
    recognizedToken "bogus_action" = false ∧
    strToInt "1" = some 1 ∧
    (applyWorkflowActions ["star", "bogus_action", "mark_unread"] (some "1") demoStore).1
        = (applyWorkflowActions ["star", "mark_unread"] (some "1") demoStore).1 ∧
    (applyWorkflowActions ["star", "bogus_action", "mark_unread"] (some "1") demoStore).2.1
        = (applyWorkflowActions ["star", "mark_unread"] (some "1") demoStore).2.1 ∧
    (applyWorkflowActions ["star", "bogus_action", "mark_unread"] (some "1") demoStore).2.2
        = [] := by
  have h := c6_unknown_token_skipped 1 demoStore ["star"] ["mark_unread"] "bogus_action"
    "1" 1 (by decide) (by decide)
  exact ⟨by decide, by decide, by simpa using h.2.2.1, by simpa using h.2.2.2.1,
    by simpa using h.2.2.2.2⟩
